import Mathlib

/-! Floating-IP subcommands of the command-line client (`api/client/fip.go`).

A shallow embedding of the five `fip` subcommands and of `fipUsage`, together
with the properties of the specification that concern them.

* Go `error` values are `Option GoError` (`none` is `nil`).
* `cli.out` and `cli.err` are append-only text buffers.
* The API client is an arbitrary stateful object: every method takes the
  state of the remote side and returns its answer together with the new state.
* A ghost trace `calls` records every client call, in order, with the error it
  returned.
* The flag tokenizer, the filter parser and the text of `Cli.StatusError` live
  in other packages; they are parameters (`Lib`).
-/

namespace Fip

/-! ## Errors -/

/-- Go `error` values: values made by the other packages (flag parser, filter
parser, API client), known through the text of their `Error()` method, and
`Cli.StatusError`, which `CmdFipRelease` builds itself. -/
inductive GoError where
  | ext (text : String)
  | StatusError (Status : String) (StatusCode : Int)
  deriving DecidableEq, Repr

/-! ## The flag package -/

/-- The kinds of argument-count requirement, `flag.Exact`, `flag.Max`, `flag.Min`. -/
inductive ArgsRequirement where
  | Exact
  | Max
  | Min
  deriving DecidableEq, Repr

/-- A subcommand's flag set as `Cli.Subcmd`, `cmd.Var` and `cmd.Require` build it. -/
structure FlagSet where
  name : String
  synopses : List String
  description : String
  exitOnError : Bool
  listFlags : List (List String × String)
  nArgRequirements : List (ArgsRequirement × Nat)
  deriving DecidableEq, Repr

/-- The flag set made by `Cli.Subcmd(name, synopses, description, exitOnError)`. -/
def Subcmd (name : String) (synopses : List String) (description : String)
    (exitOnError : Bool) : FlagSet :=
  { name := name, synopses := synopses, description := description,
    exitOnError := exitOnError, listFlags := [], nArgRequirements := [] }

/-- The registration `cmd.Var(&list, names, usage)` of a list-valued option. -/
def FlagSet.Var (fs : FlagSet) (names : List String) (usage : String) : FlagSet :=
  { fs with listFlags := fs.listFlags ++ [(names, usage)] }

/-- The declaration `cmd.Require(kind, n)`. -/
def FlagSet.Require (fs : FlagSet) (kind : ArgsRequirement) (n : Nat) : FlagSet :=
  { fs with nArgRequirements := fs.nArgRequirements ++ [(kind, n)] }

/-- What a successful parse leaves behind: the positional arguments
(`cmd.Args()`) and the values collected by the list option (`flFilter.GetAll()`),
both in command-line order. -/
structure Parsed where
  args : List String
  listValues : List String
  deriving DecidableEq, Repr

/-- The parts of the other packages the subcommands depend on.
`Parse` is the flag tokenizer (its last argument is `withHelp`), `ArityError`
the error of an unmet argument-count requirement, `NewArgs` and `ParseFlag` the
filter package (`Φ` is `filters.Args`), `StatusErrorText` the `Error()` text of
a `Cli.StatusError`. -/
structure Lib (Φ : Type) where
  Parse : FlagSet → List String → Bool → Except GoError Parsed
  ArityError : FlagSet → ArgsRequirement × Nat → GoError
  NewArgs : Φ
  ParseFlag : String → Φ → Except GoError Φ
  StatusErrorText : String → Int → String

/-- Modelled from the spec: the flag package (`Require`, `ParseFlags`) is not in
the source tree. A requirement is met when the number of positional arguments
matches the declared arity: exactly `n`, at most `n`, at least `n`. -/
def requirementMet : ArgsRequirement × Nat → Nat → Bool
  | (.Exact, n), nArg => nArg == n
  | (.Max, n), nArg => decide (nArg ≤ n)
  | (.Min, n), nArg => decide (n ≤ nArg)

/-- Modelled from the spec: the flag package (`ParseFlags`) is not in the source
tree. Flag-parse errors and argument-arity errors are surfaced immediately:
the tokenizer's error is returned, otherwise the first declared requirement
that the positional arguments do not meet gives an error. -/
def FlagSet.ParseFlags {Φ : Type} (L : Lib Φ) (fs : FlagSet) (args : List String)
    (withHelp : Bool) : Except GoError Parsed :=
  match L.Parse fs args withHelp with
  | .error e => .error e
  | .ok p =>
    match fs.nArgRequirements.find? (fun r => !requirementMet r p.args.length) with
    | some r => .error (L.ArityError fs r)
    | none => .ok p

/-- Modelled from the spec: the flag package (`Arg`) is not in the source tree.
The positional argument `cmd.Arg(i)`; the empty string stands for an argument
that is not there, which no successful parse of these subcommands reaches. -/
def Parsed.Arg (p : Parsed) (i : Nat) : String :=
  p.args.getD i ""

/-- The text of `err.Error()`. -/
def GoError.Error {Φ : Type} (L : Lib Φ) : GoError → String
  | .ext text => text
  | .StatusError st code => L.StatusErrorText st code

/-! ## The client and the command-line object -/

/-- The request `types.NetworkListOptions`. -/
structure NetworkListOptions (Φ : Type) where
  Filters : Φ
  deriving DecidableEq

/-- The floating-IP methods of `cli.client`, over a remote state `σ`. -/
structure APIClient (σ Φ : Type) where
  FipAllocate : String → σ → Except GoError (List String) × σ
  FipRelease : String → σ → Option GoError × σ
  FipAssociate : String → String → σ → Option GoError × σ
  FipDeassociate : String → σ → Except GoError String × σ
  FipList : NetworkListOptions Φ → σ → Except GoError (List String) × σ

/-- A client call as it appears in the trace. -/
inductive Call (Φ : Type) where
  | FipAllocate (count : String)
  | FipRelease (ip : String)
  | FipAssociate (ip container : String)
  | FipDeassociate (container : String)
  | FipList (options : NetworkListOptions Φ)
  deriving DecidableEq

/-- One entry of the trace: the call and the error it returned (`none` for `nil`). -/
structure CallRecord (Φ : Type) where
  call : Call Φ
  err : Option GoError
  deriving DecidableEq

/-- The observable state of a `DockerCli`: the remote side behind `cli.client`,
the trace of client calls, and what has been written to `cli.out` and `cli.err`. -/
structure DockerCli (σ Φ : Type) where
  remote : σ
  calls : List (CallRecord Φ)
  out : String
  err : String

/-- The error part of a two-valued result. -/
def errOf {α : Type} : Except GoError α → Option GoError
  | .error e => some e
  | .ok _ => none

/-- The loop `for _, ip := range fips { fmt.Fprintf(cli.out, "%s\n", ip) }`. -/
def printLines {σ Φ : Type} (cli : DockerCli σ Φ) : List String → DockerCli σ Φ
  | [] => cli
  | ip :: fips => printLines { cli with out := cli.out ++ (ip ++ "\n") } fips

/-! ## The subcommands -/

/-- The flag set `cmd` of `CmdFipAllocate`. -/
def allocateCmd : FlagSet :=
  (Subcmd "fip allocate" ["COUNT"] "Creates some new floating IPs by the user" false).Require
    .Exact 1

/-- The flag set `cmd` of `CmdFipRelease`. -/
def releaseCmd : FlagSet :=
  (Subcmd "fip release" ["FIP [FIP...]"] "Release one or more fips" false).Require .Min 1

/-- The flag set `cmd` of `CmdFipAssociate`. -/
def associateCmd : FlagSet :=
  (Subcmd "fip associate" ["FIP CONTAINER"] "Connects a container to a floating IP" false).Require
    .Min 2

/-- The flag set `cmd` of `CmdFipDeassociate`. -/
def deassociateCmd : FlagSet :=
  (Subcmd "fip deassociate" ["CONTAINER"] "Disconnects container from a floating IP"
    false).Require .Exact 1

/-- The flag set `cmd` of `CmdFipLs`, with its list option `-f`, `--filter`. -/
def lsCmd : FlagSet :=
  ((Subcmd "fip ls" [] "Lists fips" true).Var ["f", "-filter"]
    "Filter output based on conditions provided").Require .Exact 0

/-- The subcommand `fip allocate COUNT`. -/
def CmdFipAllocate {σ Φ : Type} (L : Lib Φ) (C : APIClient σ Φ) (cli : DockerCli σ Φ)
    (args : List String) : Option GoError × DockerCli σ Φ :=
  match allocateCmd.ParseFlags L args true with
  | .error err => (some err, cli)
  | .ok p =>
    let r := C.FipAllocate (p.Arg 0) cli.remote
    let cli := { cli with remote := r.2,
                          calls := cli.calls ++ [⟨.FipAllocate (p.Arg 0), errOf r.1⟩] }
    match r.1 with
    | .error err => (some err, cli)
    | .ok fips => (none, printLines cli fips)

/-- The loop of `CmdFipRelease` over `cmd.Args()`, carrying `status`. -/
def releaseLoop {σ Φ : Type} (L : Lib Φ) (C : APIClient σ Φ) :
    Int → DockerCli σ Φ → List String → Int × DockerCli σ Φ
  | status, cli, [] => (status, cli)
  | status, cli, ip :: ips =>
    let r := C.FipRelease ip cli.remote
    let cli := { cli with remote := r.2, calls := cli.calls ++ [⟨.FipRelease ip, r.1⟩] }
    match r.1 with
    | some err => releaseLoop L C 1 { cli with err := cli.err ++ (err.Error L ++ "\n") } ips
    | none => releaseLoop L C status cli ips

/-- The subcommand `fip release FIP [FIP...]`. -/
def CmdFipRelease {σ Φ : Type} (L : Lib Φ) (C : APIClient σ Φ) (cli : DockerCli σ Φ)
    (args : List String) : Option GoError × DockerCli σ Φ :=
  match releaseCmd.ParseFlags L args true with
  | .error err => (some err, cli)
  | .ok p =>
    let r := releaseLoop L C 0 cli p.args
    if r.1 ≠ 0 then (some (.StatusError "" r.1), r.2) else (none, r.2)

/-- The subcommand `fip associate FIP CONTAINER`. -/
def CmdFipAssociate {σ Φ : Type} (L : Lib Φ) (C : APIClient σ Φ) (cli : DockerCli σ Φ)
    (args : List String) : Option GoError × DockerCli σ Φ :=
  match associateCmd.ParseFlags L args true with
  | .error err => (some err, cli)
  | .ok p =>
    let r := C.FipAssociate (p.Arg 0) (p.Arg 1) cli.remote
    (r.1, { cli with remote := r.2,
                     calls := cli.calls ++ [⟨.FipAssociate (p.Arg 0) (p.Arg 1), r.1⟩] })

/-- The subcommand `fip deassociate CONTAINER`. -/
def CmdFipDeassociate {σ Φ : Type} (L : Lib Φ) (C : APIClient σ Φ) (cli : DockerCli σ Φ)
    (args : List String) : Option GoError × DockerCli σ Φ :=
  match deassociateCmd.ParseFlags L args true with
  | .error err => (some err, cli)
  | .ok p =>
    let r := C.FipDeassociate (p.Arg 0) cli.remote
    let cli := { cli with remote := r.2,
                          calls := cli.calls ++ [⟨.FipDeassociate (p.Arg 0), errOf r.1⟩] }
    match r.1 with
    | .error err => (some err, cli)
    | .ok ip => (none, { cli with out := cli.out ++ (ip ++ "\n") })

/-- The loop of `CmdFipLs` over `flFilter.GetAll()`: every value goes through
`filters.ParseFlag` with the arguments gathered so far; the first error ends it. -/
def filterLoop {Φ : Type} (L : Lib Φ) : Φ → List String → Except GoError Φ
  | fipFilterArgs, [] => .ok fipFilterArgs
  | fipFilterArgs, f :: fs =>
    match L.ParseFlag f fipFilterArgs with
    | .error err => .error err
    | .ok fipFilterArgs => filterLoop L fipFilterArgs fs

/-- The subcommand `fip ls [-f FILTER]...`. -/
def CmdFipLs {σ Φ : Type} (L : Lib Φ) (C : APIClient σ Φ) (cli : DockerCli σ Φ)
    (args : List String) : Option GoError × DockerCli σ Φ :=
  match lsCmd.ParseFlags L args true with
  | .error err => (some err, cli)
  | .ok p =>
    match filterLoop L L.NewArgs p.listValues with
    | .error err => (some err, cli)
    | .ok fipFilterArgs =>
      let options : NetworkListOptions Φ := { Filters := fipFilterArgs }
      let r := C.FipList options cli.remote
      let cli := { cli with remote := r.2,
                            calls := cli.calls ++ [⟨.FipList options, errOf r.1⟩] }
      match r.1 with
      | .error err => (some err, cli)
      | .ok fips => (none, printLines cli fips)

/-! ## The help text -/

/-- The map literal `fipCommands`, in the order it is written. -/
def fipCommands : List (String × String) :=
  [ ("allocate", "Allocate a or some IPs"),
    ("associate", "Associate floating IP to container"),
    ("deassociate", "Deassociate floating IP from conainer"),
    ("ls", "List all floating IPs"),
    ("release", "Release a floating IP") ]

/-- The verb `%-25.25s`: the first 25 characters of `s` (all of `s` when it is
shorter), then spaces up to a width of 25. -/
def fmtLeft25 (s : String) : String :=
  let t := String.mk (s.data.take 25)
  t ++ String.mk (List.replicate (25 - t.length) ' ')

/-- The text `fmt.Sprintf("  %-25.25s%s\n", cmd, description)`. -/
def usageLine (entry : String × String) : String :=
  "  " ++ fmtLeft25 entry.1 ++ entry.2 ++ "\n"

/-- The function `fipUsage`; `order` is the order in which `range` enumerates the
entries of the map `fipCommands`. -/
def fipUsage (order : List (String × String)) : String :=
  let help := "Commands:\n"
  let help := order.foldl (fun help entry => help ++ usageLine entry) help
  help ++ "\nRun 'docker fip COMMAND --help' for more information on a command."

/-! ## What the client answers during a run -/

/-- The records of calling `client.FipRelease` on each of `ips` in turn, starting
from the remote state `s`: the behaviour of the client on that sequence. -/
def releaseRecords {σ Φ : Type} (C : APIClient σ Φ) : σ → List String → List (CallRecord Φ)
  | _, [] => []
  | s, ip :: ips =>
    ⟨.FipRelease ip, (C.FipRelease ip s).1⟩ :: releaseRecords C (C.FipRelease ip s).2 ips

/-- The remote state left by calling `client.FipRelease` on each of `ips` in
turn, starting from the remote state `s`. -/
def releaseRemote {σ Φ : Type} (C : APIClient σ Φ) : σ → List String → σ
  | s, [] => s
  | s, ip :: ips => releaseRemote C (C.FipRelease ip s).2 ips

/-- One line per failed record: the error's text followed by a newline. -/
def errorLines {Φ : Type} (L : Lib Φ) (recs : List (CallRecord Φ)) : List String :=
  recs.filterMap (fun r => r.err.map (fun e => e.Error L ++ "\n"))

/-! ## A sample instance

A small tokenizer, filter parser and client, used to evaluate the subcommands on
concrete command lines. -/

/-- A tokenizer: `-f VALUE` and `--filter VALUE` give a value of the list
option, every other argument is positional. -/
def sampleTokens : List String → Parsed
  | [] => ⟨[], []⟩
  | [a] => ⟨[a], []⟩
  | a :: b :: rest =>
    if a = "-f" ∨ a = "--filter" then
      ⟨(sampleTokens rest).args, b :: (sampleTokens rest).listValues⟩
    else
      ⟨a :: (sampleTokens (b :: rest)).args, (sampleTokens (b :: rest)).listValues⟩

/-- A filter parser over a list of raw filters: the empty filter is skipped, a
filter without `=` is refused. -/
def sampleParseFlag (f : String) (prev : List String) : Except GoError (List String) :=
  if f.data = [] then .ok prev
  else if '=' ∈ f.data then .ok (prev ++ [f])
  else .error (.ext "bad format of filter (expected name=value)")

/-- The sample instance of the other packages. -/
def sampleLib : Lib (List String) where
  Parse := fun _ args _ => .ok (sampleTokens args)
  ArityError := fun fs _ => .ext (fs.name ++ ": wrong number of arguments")
  NewArgs := []
  ParseFlag := sampleParseFlag
  StatusErrorText := fun st code => "Status: " ++ st ++ ", Code: " ++ toString code

/-- A sample client; the remote state is the list of floating IPs held, an
associated one written `ip@container`. -/
def sampleClient : APIClient (List String) (List String) where
  FipAllocate := fun count s =>
    if count = "2" then (.ok ["10.0.0.3", "10.0.0.4"], s ++ ["10.0.0.3", "10.0.0.4"])
    else (.error (.ext "unsupported count"), s)
  FipRelease := fun ip s =>
    if ip ∈ s then (none, s.erase ip) else (some (.ext ("no such floating IP: " ++ ip)), s)
  FipAssociate := fun ip container s =>
    if ip ∈ s then (none, s.erase ip ++ [ip ++ "@" ++ container])
    else (some (.ext ("no such floating IP: " ++ ip)), s)
  FipDeassociate := fun container s =>
    if container = "web" then (.ok "10.0.0.1", s) else (.error (.ext "no such container"), s)
  FipList := fun options s =>
    if options.Filters.length ≤ 1 then (.ok s, s) else (.error (.ext "too many filters"), s)

/-- A `DockerCli` holding two floating IPs, with nothing called or written yet. -/
def sampleCli : DockerCli (List String) (List String) :=
  { remote := ["10.0.0.1", "10.0.0.2"], calls := [], out := "", err := "" }

/-! ## Helper lemmas -/

theorem join_cons (a : String) (l : List String) : String.join (a :: l) = a ++ String.join l := by
  apply String.ext
  simp [String.join_eq]

theorem join_nil : String.join [] = "" := rfl

theorem join_append (l₁ l₂ : List String) :
    String.join (l₁ ++ l₂) = String.join l₁ ++ String.join l₂ := by
  apply String.ext
  simp [String.join_eq]

theorem releaseRecords_calls {σ Φ : Type} (C : APIClient σ Φ) (s : σ) (ips : List String) :
    (releaseRecords C s ips).map (fun r => r.call) = ips.map Call.FipRelease := by
  induction ips generalizing s with
  | nil => rfl
  | cons ip ips ih => simp [releaseRecords, ih]

theorem releaseRecords_length {σ Φ : Type} (C : APIClient σ Φ) (s : σ) (ips : List String) :
    (releaseRecords C s ips).length = ips.length := by
  induction ips generalizing s with
  | nil => rfl
  | cons ip ips ih => simp [releaseRecords, ih]

/-- The records of a sequence of targets, split at one of them: the target is
called on the state the targets before it have left. -/
theorem releaseRecords_append {σ Φ : Type} (C : APIClient σ Φ) (s : σ) (pre suf : List String)
    (ip : String) :
    releaseRecords C s (pre ++ ip :: suf)
      = releaseRecords C s pre
          ++ ⟨.FipRelease ip, (C.FipRelease ip (releaseRemote C s pre)).1⟩
            :: releaseRecords C (C.FipRelease ip (releaseRemote C s pre)).2 suf := by
  induction pre generalizing s with
  | nil => simp [releaseRecords, releaseRemote]
  | cons a pre ih => simp [releaseRecords, releaseRemote, ih]

/-- The remote state after one more target. -/
theorem releaseRemote_snoc {σ Φ : Type} (C : APIClient σ Φ) (s : σ) (pre : List String)
    (ip : String) :
    releaseRemote C s (pre ++ [ip]) = (C.FipRelease ip (releaseRemote C s pre)).2 := by
  induction pre generalizing s with
  | nil => simp [releaseRemote]
  | cons a pre ih => simp [releaseRemote, ih]

/-- The loop of `CmdFipRelease` leaves the remote side as the calls left it. -/
theorem releaseLoop_remote {σ Φ : Type} (L : Lib Φ) (C : APIClient σ Φ) (status : Int)
    (cli : DockerCli σ Φ) (ips : List String) :
    (releaseLoop L C status cli ips).2.remote = releaseRemote C cli.remote ips := by
  induction ips generalizing status cli with
  | nil => simp [releaseLoop, releaseRemote]
  | cons ip ips ih =>
    rcases hr : C.FipRelease ip cli.remote with ⟨e, s'⟩
    cases e with
    | none => simp only [releaseLoop, releaseRemote, hr]; rw [ih]
    | some e => simp only [releaseLoop, releaseRemote, hr]; rw [ih]

/-- The loop of `CmdFipRelease`, record by record. -/
theorem releaseLoop_spec {σ Φ : Type} (L : Lib Φ) (C : APIClient σ Φ) (status : Int)
    (cli : DockerCli σ Φ) (ips : List String) :
    (releaseLoop L C status cli ips).1
        = (if ∀ r ∈ releaseRecords C cli.remote ips, r.err = none then status else 1) ∧
      (releaseLoop L C status cli ips).2.calls
        = cli.calls ++ releaseRecords C cli.remote ips ∧
      (releaseLoop L C status cli ips).2.out = cli.out ∧
      (releaseLoop L C status cli ips).2.err
        = cli.err ++ String.join (errorLines L (releaseRecords C cli.remote ips)) := by
  induction ips generalizing status cli with
  | nil => simp [releaseLoop, releaseRecords, errorLines, join_nil]
  | cons ip ips ih =>
    rcases hr : C.FipRelease ip cli.remote with ⟨e, s'⟩
    cases e with
    | none =>
      simp only [releaseLoop, releaseRecords, hr]
      obtain ⟨h1, h2, h3, h4⟩ := ih status
        { cli with remote := s', calls := cli.calls ++ [⟨.FipRelease ip, none⟩] }
      refine ⟨?_, ?_, h3, ?_⟩
      · rw [h1]; simp
      · rw [h2]; simp
      · rw [h4]; simp [errorLines]
    | some e =>
      simp only [releaseLoop, releaseRecords, hr]
      obtain ⟨h1, h2, h3, h4⟩ := ih 1
        { remote := s', calls := cli.calls ++ [⟨.FipRelease ip, some e⟩], out := cli.out,
          err := cli.err ++ (e.Error L ++ "\n") }
      refine ⟨?_, ?_, h3, ?_⟩
      · rw [h1]; simp
      · rw [h2]; simp
      · rw [h4]; simp [errorLines, join_cons, String.append_assoc]

/-- A successful parse has met every declared requirement. -/
theorem ParseFlags_ok {Φ : Type} (L : Lib Φ) (fs : FlagSet) (args : List String)
    (withHelp : Bool) (p : Parsed) (h : fs.ParseFlags L args withHelp = .ok p) :
    L.Parse fs args withHelp = .ok p ∧
      ∀ r ∈ fs.nArgRequirements, requirementMet r p.args.length = true := by
  unfold FlagSet.ParseFlags at h
  cases hp : L.Parse fs args withHelp with
  | error e => rw [hp] at h; simp at h
  | ok q =>
    rw [hp] at h
    simp only at h
    cases hf : fs.nArgRequirements.find? (fun r => !requirementMet r q.args.length) with
    | some r => rw [hf] at h; simp at h
    | none =>
      rw [hf] at h
      simp only [Except.ok.injEq] at h
      subst h
      refine ⟨rfl, ?_⟩
      intro r hr
      have := List.find?_eq_none.mp hf r hr
      simpa using this

/-- The printing loop appends one line per element and touches nothing else. -/
theorem printLines_spec {σ Φ : Type} (cli : DockerCli σ Φ) (fips : List String) :
    printLines cli fips
      = { cli with out := cli.out ++ String.join (fips.map (fun ip => ip ++ "\n")) } := by
  induction fips generalizing cli with
  | nil => simp [printLines, join_nil]
  | cons ip fips ih => simp [printLines, ih, join_cons, String.append_assoc]

/-- A parse by a flag set requiring exactly one argument leaves exactly one. -/
theorem exact_one_of_parse {Φ : Type} (L : Lib Φ) (fs : FlagSet) (args : List String)
    (p : Parsed) (hfs : (.Exact, 1) ∈ fs.nArgRequirements) (h : fs.ParseFlags L args true = .ok p) :
    ∃ a0, p.args = [a0] ∧ p.Arg 0 = a0 := by
  have := (ParseFlags_ok L fs args true p h).2 _ hfs
  simp only [requirementMet, beq_iff_eq] at this
  obtain ⟨a0, ha⟩ := List.length_eq_one.mp this
  exact ⟨a0, ha, by simp [Parsed.Arg, ha]⟩

/-- A parse by a flag set requiring at least two arguments leaves at least two. -/
theorem min_two_of_parse {Φ : Type} (L : Lib Φ) (fs : FlagSet) (args : List String)
    (p : Parsed) (hfs : (.Min, 2) ∈ fs.nArgRequirements) (h : fs.ParseFlags L args true = .ok p) :
    ∃ a0 a1 rest, p.args = a0 :: a1 :: rest ∧ p.Arg 0 = a0 ∧ p.Arg 1 = a1 := by
  have := (ParseFlags_ok L fs args true p h).2 _ hfs
  simp only [requirementMet, decide_eq_true_eq] at this
  match hp : p.args, this with
  | a0 :: a1 :: rest, _ => exact ⟨a0, a1, rest, rfl, by simp [Parsed.Arg, hp], by simp [Parsed.Arg, hp]⟩

theorem allocateCmd_req : (.Exact, 1) ∈ allocateCmd.nArgRequirements := by
  simp [allocateCmd, FlagSet.Require, Subcmd]

theorem deassociateCmd_req : (.Exact, 1) ∈ deassociateCmd.nArgRequirements := by
  simp [deassociateCmd, FlagSet.Require, Subcmd]

theorem associateCmd_req : (.Min, 2) ∈ associateCmd.nArgRequirements := by
  simp [associateCmd, FlagSet.Require, Subcmd]

/-- The loop over the filter values is the left fold of `filters.ParseFlag`. -/
theorem filterLoop_eq_foldlM {Φ : Type} (L : Lib Φ) (init : Φ) (fs : List String) :
    filterLoop L init fs = fs.foldlM (fun acc f => L.ParseFlag f acc) init := by
  induction fs generalizing init with
  | nil => rfl
  | cons f fs ih =>
    simp only [filterLoop, List.foldlM_cons]
    cases L.ParseFlag f init with
    | error e => rfl
    | ok φ => exact ih φ

/-- The loop stops at the first filter value that is refused, whatever follows it. -/
theorem filterLoop_stops {Φ : Type} (L : Lib Φ) (init acc : Φ) (pre suf : List String)
    (f : String) (e : GoError) (hpre : filterLoop L init pre = .ok acc)
    (hf : L.ParseFlag f acc = .error e) :
    filterLoop L init (pre ++ f :: suf) = .error e := by
  induction pre generalizing init with
  | nil =>
    simp only [filterLoop, Except.ok.injEq] at hpre
    subst hpre
    simp [filterLoop, hf]
  | cons g pre ih =>
    simp only [filterLoop, List.cons_append] at hpre ⊢
    cases hg : L.ParseFlag g init with
    | error e' => rw [hg] at hpre; simp at hpre
    | ok φ => rw [hg] at hpre; exact ih φ hpre

/-! ## `fip release` -/

/-- C1: whenever the argument list of `CmdFipRelease` parses into positional
arguments `ip_1..ip_n`, then `n ≥ 1` and, whatever the client answers,
`client.FipRelease` is called exactly `n` times: the trace grows by the `n`
records `FipRelease ip_1, ..., FipRelease ip_n`, in command-line order, with the
strings unchanged and with the errors the client returned; every `ip_i` is
called on the remote state that the calls for `ip_1..ip_(i-1)` have left, whether
they failed or not; and the remote side ends in the state that the `n` calls
have left. -/
theorem CmdFipRelease_calls_every_target {σ Φ : Type} (L : Lib Φ) (C : APIClient σ Φ)
    (cli : DockerCli σ Φ) (args : List String) (p : Parsed)
    (h : releaseCmd.ParseFlags L args true = .ok p) :
    1 ≤ p.args.length ∧
      (CmdFipRelease L C cli args).2.calls = cli.calls ++ releaseRecords C cli.remote p.args ∧
      (CmdFipRelease L C cli args).2.remote = releaseRemote C cli.remote p.args ∧
      (releaseRecords C cli.remote p.args).length = p.args.length ∧
      (releaseRecords C cli.remote p.args).map (fun r => r.call)
        = p.args.map Call.FipRelease ∧
      (∀ pre ip suf, p.args = pre ++ ip :: suf →
        (releaseRecords C cli.remote p.args)[pre.length]?
            = some ⟨.FipRelease ip, (C.FipRelease ip (releaseRemote C cli.remote pre)).1⟩ ∧
          releaseRemote C cli.remote (pre ++ [ip])
            = (C.FipRelease ip (releaseRemote C cli.remote pre)).2) := by
  refine ⟨?_, ?_, ?_, releaseRecords_length C _ _, releaseRecords_calls C _ _, ?_⟩
  · have := (ParseFlags_ok L _ args true p h).2 (.Min, 1)
      (by simp [releaseCmd, FlagSet.Require, Subcmd])
    simpa [requirementMet] using this
  · unfold CmdFipRelease
    rw [h]
    have := (releaseLoop_spec L C 0 cli p.args).2.1
    simp only
    split <;> exact this
  · unfold CmdFipRelease
    rw [h]
    have := releaseLoop_remote L C 0 cli p.args
    simp only
    split <;> exact this
  · intro pre ip suf hp
    refine ⟨?_, releaseRemote_snoc C _ pre ip⟩
    rw [hp, releaseRecords_append]
    have hl : (releaseRecords C cli.remote pre).length = pre.length :=
      releaseRecords_length C _ _
    rw [List.getElem?_append_right (by omega)]
    simp [hl]

/-- Witness of C1 on `fip release 10.0.0.1 10.0.0.7 10.0.0.2`, whose second
target fails: three records, the third target released all the same, and no
floating IP left on the remote side. -/
theorem CmdFipRelease_calls_every_target_witness :
    releaseCmd.ParseFlags sampleLib ["10.0.0.1", "10.0.0.7", "10.0.0.2"] true
        = .ok ⟨["10.0.0.1", "10.0.0.7", "10.0.0.2"], []⟩ ∧
      (CmdFipRelease sampleLib sampleClient sampleCli
          ["10.0.0.1", "10.0.0.7", "10.0.0.2"]).2.calls
        = [⟨.FipRelease "10.0.0.1", none⟩,
            ⟨.FipRelease "10.0.0.7", some (.ext "no such floating IP: 10.0.0.7")⟩,
            ⟨.FipRelease "10.0.0.2", none⟩] ∧
      (CmdFipRelease sampleLib sampleClient sampleCli
          ["10.0.0.1", "10.0.0.7", "10.0.0.2"]).2.remote = [] ∧
      (releaseRecords sampleClient sampleCli.remote
          ["10.0.0.1", "10.0.0.7", "10.0.0.2"])[2]?
        = some ⟨.FipRelease "10.0.0.2",
            (sampleClient.FipRelease "10.0.0.2" ["10.0.0.2"]).1⟩ :=
  ⟨rfl,
    (CmdFipRelease_calls_every_target sampleLib sampleClient sampleCli
      ["10.0.0.1", "10.0.0.7", "10.0.0.2"] ⟨["10.0.0.1", "10.0.0.7", "10.0.0.2"], []⟩
      rfl).2.1,
    (CmdFipRelease_calls_every_target sampleLib sampleClient sampleCli
      ["10.0.0.1", "10.0.0.7", "10.0.0.2"] ⟨["10.0.0.1", "10.0.0.7", "10.0.0.2"], []⟩
      rfl).2.2.1,
    ((CmdFipRelease_calls_every_target sampleLib sampleClient sampleCli
      ["10.0.0.1", "10.0.0.7", "10.0.0.2"] ⟨["10.0.0.1", "10.0.0.7", "10.0.0.2"], []⟩
      rfl).2.2.2.2.2 ["10.0.0.1", "10.0.0.7"] "10.0.0.2" [] rfl).1⟩

/-- C2: whenever the argument list of `CmdFipRelease` parses, the result is `nil`
exactly when every `FipRelease` call succeeded, otherwise it is
`Cli.StatusError` with `StatusCode` 1 whatever the number of failures, and in
both cases all the targets have been attempted. -/
theorem CmdFipRelease_status {σ Φ : Type} (L : Lib Φ) (C : APIClient σ Φ)
    (cli : DockerCli σ Φ) (args : List String) (p : Parsed)
    (h : releaseCmd.ParseFlags L args true = .ok p) :
    ((CmdFipRelease L C cli args).1 = none ↔
        ∀ r ∈ releaseRecords C cli.remote p.args, r.err = none) ∧
      ((CmdFipRelease L C cli args).1 ≠ none →
        (CmdFipRelease L C cli args).1 = some (.StatusError "" 1)) ∧
      (CmdFipRelease L C cli args).2.calls = cli.calls ++ releaseRecords C cli.remote p.args := by
  obtain ⟨h1, h2, -, -⟩ := releaseLoop_spec L C 0 cli p.args
  unfold CmdFipRelease
  rw [h]
  simp only
  by_cases hall : ∀ r ∈ releaseRecords C cli.remote p.args, r.err = none
  · rw [if_pos hall] at h1
    simp only [h1, h2]
    exact ⟨⟨fun _ => hall, fun _ => by simp⟩, fun hne => absurd (by simp) hne, by simpa using h2⟩
  · rw [if_neg hall] at h1
    simp only [h1, h2]
    exact ⟨⟨fun hn => absurd hn (by simp), fun ha => absurd ha hall⟩, fun _ => by simp, by simpa using h2⟩

/-- Witness of C2 on `fip release 10.0.0.7 10.0.0.1 10.0.0.8`, two of whose
targets fail: the status is 1. -/
theorem CmdFipRelease_status_witness :
    releaseCmd.ParseFlags sampleLib ["10.0.0.7", "10.0.0.1", "10.0.0.8"] true
        = .ok ⟨["10.0.0.7", "10.0.0.1", "10.0.0.8"], []⟩ ∧
      (((CmdFipRelease sampleLib sampleClient sampleCli
            ["10.0.0.7", "10.0.0.1", "10.0.0.8"]).1 = none ↔
          ∀ r ∈ releaseRecords sampleClient sampleCli.remote
            ["10.0.0.7", "10.0.0.1", "10.0.0.8"], r.err = none) ∧
        ((CmdFipRelease sampleLib sampleClient sampleCli
            ["10.0.0.7", "10.0.0.1", "10.0.0.8"]).1 ≠ none →
          (CmdFipRelease sampleLib sampleClient sampleCli
            ["10.0.0.7", "10.0.0.1", "10.0.0.8"]).1 = some (.StatusError "" 1)) ∧
        (CmdFipRelease sampleLib sampleClient sampleCli
            ["10.0.0.7", "10.0.0.1", "10.0.0.8"]).2.calls
          = sampleCli.calls ++ releaseRecords sampleClient sampleCli.remote
              ["10.0.0.7", "10.0.0.1", "10.0.0.8"]) :=
  ⟨rfl, CmdFipRelease_status sampleLib sampleClient sampleCli
    ["10.0.0.7", "10.0.0.1", "10.0.0.8"] ⟨["10.0.0.7", "10.0.0.1", "10.0.0.8"], []⟩ rfl⟩

/-- C8: `CmdFipRelease` never writes to `cli.out`, and whenever its argument list
parses, what it writes to `cli.err` is exactly, in command-line order of the
failing targets, each failing call's error text followed by one newline. -/
theorem CmdFipRelease_reports_each_failure {σ Φ : Type} (L : Lib Φ) (C : APIClient σ Φ)
    (cli : DockerCli σ Φ) (args : List String) :
    (CmdFipRelease L C cli args).2.out = cli.out ∧
      ∀ p : Parsed, releaseCmd.ParseFlags L args true = .ok p →
        (CmdFipRelease L C cli args).2.err
          = cli.err ++ String.join
              ((releaseRecords C cli.remote p.args).filterMap
                (fun r => r.err.map (fun e => e.Error L ++ "\n"))) := by
  constructor
  · unfold CmdFipRelease
    cases h : releaseCmd.ParseFlags L args true with
    | error e => rfl
    | ok p =>
      have := (releaseLoop_spec L C 0 cli p.args).2.2.1
      simp only
      split <;> exact this
  · intro p h
    unfold CmdFipRelease
    rw [h]
    have := (releaseLoop_spec L C 0 cli p.args).2.2.2
    simp only
    split <;> exact this

/-- Witness of C8 on `fip release 10.0.0.7 10.0.0.1 10.0.0.8`: two lines on
`cli.err`, none for the target that succeeded. -/
theorem CmdFipRelease_reports_each_failure_witness :
    releaseCmd.ParseFlags sampleLib ["10.0.0.7", "10.0.0.1", "10.0.0.8"] true
        = .ok ⟨["10.0.0.7", "10.0.0.1", "10.0.0.8"], []⟩ ∧
      (CmdFipRelease sampleLib sampleClient sampleCli
          ["10.0.0.7", "10.0.0.1", "10.0.0.8"]).2.err
        = "" ++ String.join
            ((releaseRecords sampleClient sampleCli.remote
                ["10.0.0.7", "10.0.0.1", "10.0.0.8"]).filterMap
              (fun r => r.err.map (fun e => e.Error sampleLib ++ "\n"))) :=
  ⟨rfl, (CmdFipRelease_reports_each_failure sampleLib sampleClient sampleCli
    ["10.0.0.7", "10.0.0.1", "10.0.0.8"]).2 ⟨["10.0.0.7", "10.0.0.1", "10.0.0.8"], []⟩ rfl⟩

/-! ## Success paths, pass-through of arguments and of errors -/

/-- C3: on a success path `CmdFipAllocate` and `CmdFipLs` write to `cli.out`
exactly the returned IP strings, in order, each followed by one newline (nothing
for the empty list), `CmdFipDeassociate` writes the returned IP string followed
by a newline, and each of them returns `nil` and leaves `cli.err` as it was. -/
theorem success_writes_one_identifier_per_line {σ Φ : Type} (L : Lib Φ) (C : APIClient σ Φ)
    (cli : DockerCli σ Φ) :
    (∀ args p fips s', allocateCmd.ParseFlags L args true = .ok p →
        C.FipAllocate (p.Arg 0) cli.remote = (.ok fips, s') →
        (CmdFipAllocate L C cli args).1 = none ∧
        (CmdFipAllocate L C cli args).2.out
          = cli.out ++ String.join (fips.map (fun ip => ip ++ "\n")) ∧
        (fips = [] → (CmdFipAllocate L C cli args).2.out = cli.out) ∧
        (CmdFipAllocate L C cli args).2.err = cli.err) ∧
    (∀ args p φ fips s', lsCmd.ParseFlags L args true = .ok p →
        filterLoop L L.NewArgs p.listValues = .ok φ →
        C.FipList ⟨φ⟩ cli.remote = (.ok fips, s') →
        (CmdFipLs L C cli args).1 = none ∧
        (CmdFipLs L C cli args).2.out
          = cli.out ++ String.join (fips.map (fun ip => ip ++ "\n")) ∧
        (fips = [] → (CmdFipLs L C cli args).2.out = cli.out) ∧
        (CmdFipLs L C cli args).2.err = cli.err) ∧
    (∀ args p ip s', deassociateCmd.ParseFlags L args true = .ok p →
        C.FipDeassociate (p.Arg 0) cli.remote = (.ok ip, s') →
        (CmdFipDeassociate L C cli args).1 = none ∧
        (CmdFipDeassociate L C cli args).2.out = cli.out ++ (ip ++ "\n") ∧
        (CmdFipDeassociate L C cli args).2.err = cli.err) := by
  refine ⟨?_, ?_, ?_⟩
  · intro args p fips s' hp hc
    have hout : (CmdFipAllocate L C cli args).2.out
        = cli.out ++ String.join (fips.map (fun ip => ip ++ "\n")) := by
      simp [CmdFipAllocate, hp, hc, printLines_spec]
    refine ⟨?_, hout, ?_, ?_⟩
    · simp [CmdFipAllocate, hp, hc]
    · intro hnil
      rw [hout, hnil]
      simp [join_nil]
    · simp [CmdFipAllocate, hp, hc, printLines_spec]
  · intro args p φ fips s' hp hf hc
    have hout : (CmdFipLs L C cli args).2.out
        = cli.out ++ String.join (fips.map (fun ip => ip ++ "\n")) := by
      simp [CmdFipLs, hp, hf, hc, printLines_spec]
    refine ⟨?_, hout, ?_, ?_⟩
    · simp [CmdFipLs, hp, hf, hc]
    · intro hnil
      rw [hout, hnil]
      simp [join_nil]
    · simp [CmdFipLs, hp, hf, hc, printLines_spec]
  · intro args p ip s' hp hc
    simp [CmdFipDeassociate, hp, hc]

/-- Witness of C3 on `fip allocate 2`, `fip ls -f name=a` and `fip deassociate web`. -/
theorem success_writes_one_identifier_per_line_witness :
    ((CmdFipAllocate sampleLib sampleClient sampleCli ["2"]).1 = none ∧
      (CmdFipAllocate sampleLib sampleClient sampleCli ["2"]).2.out
        = "" ++ String.join (["10.0.0.3", "10.0.0.4"].map (fun ip => ip ++ "\n")) ∧
      (["10.0.0.3", "10.0.0.4"] = [] →
        (CmdFipAllocate sampleLib sampleClient sampleCli ["2"]).2.out = "") ∧
      (CmdFipAllocate sampleLib sampleClient sampleCli ["2"]).2.err = "") ∧
    ((CmdFipLs sampleLib sampleClient sampleCli ["-f", "name=a"]).1 = none ∧
      (CmdFipLs sampleLib sampleClient sampleCli ["-f", "name=a"]).2.out
        = "" ++ String.join (["10.0.0.1", "10.0.0.2"].map (fun ip => ip ++ "\n")) ∧
      (["10.0.0.1", "10.0.0.2"] = [] →
        (CmdFipLs sampleLib sampleClient sampleCli ["-f", "name=a"]).2.out = "") ∧
      (CmdFipLs sampleLib sampleClient sampleCli ["-f", "name=a"]).2.err = "") ∧
    ((CmdFipDeassociate sampleLib sampleClient sampleCli ["web"]).1 = none ∧
      (CmdFipDeassociate sampleLib sampleClient sampleCli ["web"]).2.out
        = "" ++ ("10.0.0.1" ++ "\n") ∧
      (CmdFipDeassociate sampleLib sampleClient sampleCli ["web"]).2.err = "") :=
  ⟨(success_writes_one_identifier_per_line sampleLib sampleClient sampleCli).1
      ["2"] ⟨["2"], []⟩ ["10.0.0.3", "10.0.0.4"]
      ["10.0.0.1", "10.0.0.2", "10.0.0.3", "10.0.0.4"] rfl rfl,
    (success_writes_one_identifier_per_line sampleLib sampleClient sampleCli).2.1
      ["-f", "name=a"] ⟨[], ["name=a"]⟩ ["name=a"] ["10.0.0.1", "10.0.0.2"]
      ["10.0.0.1", "10.0.0.2"] rfl rfl rfl,
    (success_writes_one_identifier_per_line sampleLib sampleClient sampleCli).2.2
      ["web"] ⟨["web"], []⟩ "10.0.0.1" ["10.0.0.1", "10.0.0.2"] rfl rfl⟩

/-- C4: whenever parsing succeeds, `CmdFipAllocate` makes exactly one client
call, `FipAllocate a0`, `CmdFipAssociate` exactly one, `FipAssociate a0 a1` with
the first positional argument as the floating IP and the second as the
container, and `CmdFipDeassociate` exactly one, `FipDeassociate a0`, where `a0`,
`a1` are the first positional arguments as the parse left them: the trace grows
by that one record, the remote side is left in the state that this one call on
the state before has produced, and the error returned is the error of that
call; `CmdFipAssociate` returns the result of its call and writes nothing. -/
theorem single_request_with_arguments_unchanged {σ Φ : Type} (L : Lib Φ) (C : APIClient σ Φ)
    (cli : DockerCli σ Φ) :
    (∀ args p, allocateCmd.ParseFlags L args true = .ok p →
        ∃ a0, p.args = [a0] ∧
          (CmdFipAllocate L C cli args).2.calls
            = cli.calls ++ [⟨.FipAllocate a0, errOf (C.FipAllocate a0 cli.remote).1⟩] ∧
          (CmdFipAllocate L C cli args).2.remote = (C.FipAllocate a0 cli.remote).2 ∧
          (CmdFipAllocate L C cli args).1 = errOf (C.FipAllocate a0 cli.remote).1) ∧
    (∀ args p, associateCmd.ParseFlags L args true = .ok p →
        ∃ a0 a1 rest, p.args = a0 :: a1 :: rest ∧
          (CmdFipAssociate L C cli args).2.calls
            = cli.calls ++ [⟨.FipAssociate a0 a1, (C.FipAssociate a0 a1 cli.remote).1⟩] ∧
          (CmdFipAssociate L C cli args).1 = (C.FipAssociate a0 a1 cli.remote).1 ∧
          CmdFipAssociate L C cli args
            = ((C.FipAssociate a0 a1 cli.remote).1,
                { remote := (C.FipAssociate a0 a1 cli.remote).2,
                  calls := cli.calls
                    ++ [⟨.FipAssociate a0 a1, (C.FipAssociate a0 a1 cli.remote).1⟩],
                  out := cli.out,
                  err := cli.err })) ∧
    (∀ args p, deassociateCmd.ParseFlags L args true = .ok p →
        ∃ a0, p.args = [a0] ∧
          (CmdFipDeassociate L C cli args).2.calls
            = cli.calls ++ [⟨.FipDeassociate a0, errOf (C.FipDeassociate a0 cli.remote).1⟩] ∧
          (CmdFipDeassociate L C cli args).2.remote = (C.FipDeassociate a0 cli.remote).2 ∧
          (CmdFipDeassociate L C cli args).1 = errOf (C.FipDeassociate a0 cli.remote).1) := by
  refine ⟨?_, ?_, ?_⟩
  · intro args p hp
    obtain ⟨a0, ha, harg⟩ := exact_one_of_parse L _ args p allocateCmd_req hp
    refine ⟨a0, ha, ?_⟩
    simp only [CmdFipAllocate, hp, harg]
    cases (C.FipAllocate a0 cli.remote).1 <;> simp [printLines_spec, errOf]
  · intro args p hp
    obtain ⟨a0, a1, rest, ha, h0, h1⟩ := min_two_of_parse L _ args p associateCmd_req hp
    refine ⟨a0, a1, rest, ha, ?_, ?_, ?_⟩ <;> simp [CmdFipAssociate, hp, h0, h1]
  · intro args p hp
    obtain ⟨a0, ha, harg⟩ := exact_one_of_parse L _ args p deassociateCmd_req hp
    refine ⟨a0, ha, ?_⟩
    simp only [CmdFipDeassociate, hp, harg]
    cases (C.FipDeassociate a0 cli.remote).1 <;> simp [errOf]

/-- Witness of C4 on `fip allocate 2`, `fip associate 10.0.0.1 web` and
`fip deassociate web`. -/
theorem single_request_with_arguments_unchanged_witness :
    (∃ a0, (⟨["2"], []⟩ : Parsed).args = [a0] ∧
        (CmdFipAllocate sampleLib sampleClient sampleCli ["2"]).2.calls
          = [] ++ [⟨.FipAllocate a0, errOf (sampleClient.FipAllocate a0 sampleCli.remote).1⟩] ∧
        (CmdFipAllocate sampleLib sampleClient sampleCli ["2"]).2.remote
          = (sampleClient.FipAllocate a0 ["10.0.0.1", "10.0.0.2"]).2 ∧
        (CmdFipAllocate sampleLib sampleClient sampleCli ["2"]).1
          = errOf (sampleClient.FipAllocate a0 ["10.0.0.1", "10.0.0.2"]).1) ∧
    (∃ a0 a1 rest, (⟨["10.0.0.1", "web"], []⟩ : Parsed).args = a0 :: a1 :: rest ∧
        (CmdFipAssociate sampleLib sampleClient sampleCli ["10.0.0.1", "web"]).2.calls
          = [] ++ [⟨.FipAssociate a0 a1, (sampleClient.FipAssociate a0 a1 sampleCli.remote).1⟩] ∧
        (CmdFipAssociate sampleLib sampleClient sampleCli ["10.0.0.1", "web"]).1
          = (sampleClient.FipAssociate a0 a1 sampleCli.remote).1 ∧
        CmdFipAssociate sampleLib sampleClient sampleCli ["10.0.0.1", "web"]
          = ((sampleClient.FipAssociate a0 a1 ["10.0.0.1", "10.0.0.2"]).1,
              { remote := (sampleClient.FipAssociate a0 a1 ["10.0.0.1", "10.0.0.2"]).2,
                calls := [] ++ [⟨.FipAssociate a0 a1,
                  (sampleClient.FipAssociate a0 a1 ["10.0.0.1", "10.0.0.2"]).1⟩],
                out := "",
                err := "" })) ∧
    (∃ a0, (⟨["web"], []⟩ : Parsed).args = [a0] ∧
        (CmdFipDeassociate sampleLib sampleClient sampleCli ["web"]).2.calls
          = [] ++ [⟨.FipDeassociate a0,
              errOf (sampleClient.FipDeassociate a0 sampleCli.remote).1⟩] ∧
        (CmdFipDeassociate sampleLib sampleClient sampleCli ["web"]).2.remote
          = (sampleClient.FipDeassociate a0 ["10.0.0.1", "10.0.0.2"]).2 ∧
        (CmdFipDeassociate sampleLib sampleClient sampleCli ["web"]).1
          = errOf (sampleClient.FipDeassociate a0 ["10.0.0.1", "10.0.0.2"]).1) :=
  ⟨(single_request_with_arguments_unchanged sampleLib sampleClient sampleCli).1
      ["2"] ⟨["2"], []⟩ rfl,
    (single_request_with_arguments_unchanged sampleLib sampleClient sampleCli).2.1
      ["10.0.0.1", "web"] ⟨["10.0.0.1", "web"], []⟩ rfl,
    (single_request_with_arguments_unchanged sampleLib sampleClient sampleCli).2.2
      ["web"] ⟨["web"], []⟩ rfl⟩

/-- C5: outside `release`, when the single client call returns an error `e`,
the subcommand returns exactly `e`, leaves `cli.out` as it was, and has made
that one client call and no other: the trace grows by that one record and the
remote side is in the state that call has left. -/
theorem remote_error_surfaced_as_is {σ Φ : Type} (L : Lib Φ) (C : APIClient σ Φ)
    (cli : DockerCli σ Φ) (e : GoError) :
    (∀ args p s', allocateCmd.ParseFlags L args true = .ok p →
        C.FipAllocate (p.Arg 0) cli.remote = (.error e, s') →
        (CmdFipAllocate L C cli args).1 = some e ∧
        (CmdFipAllocate L C cli args).2.out = cli.out ∧
        (CmdFipAllocate L C cli args).2.remote = s' ∧
        (CmdFipAllocate L C cli args).2.calls
          = cli.calls ++ [⟨.FipAllocate (p.Arg 0), some e⟩]) ∧
    (∀ args p s', associateCmd.ParseFlags L args true = .ok p →
        C.FipAssociate (p.Arg 0) (p.Arg 1) cli.remote = (some e, s') →
        (CmdFipAssociate L C cli args).1 = some e ∧
        (CmdFipAssociate L C cli args).2.out = cli.out ∧
        (CmdFipAssociate L C cli args).2.remote = s' ∧
        (CmdFipAssociate L C cli args).2.calls
          = cli.calls ++ [⟨.FipAssociate (p.Arg 0) (p.Arg 1), some e⟩]) ∧
    (∀ args p s', deassociateCmd.ParseFlags L args true = .ok p →
        C.FipDeassociate (p.Arg 0) cli.remote = (.error e, s') →
        (CmdFipDeassociate L C cli args).1 = some e ∧
        (CmdFipDeassociate L C cli args).2.out = cli.out ∧
        (CmdFipDeassociate L C cli args).2.remote = s' ∧
        (CmdFipDeassociate L C cli args).2.calls
          = cli.calls ++ [⟨.FipDeassociate (p.Arg 0), some e⟩]) ∧
    (∀ args p φ s', lsCmd.ParseFlags L args true = .ok p →
        filterLoop L L.NewArgs p.listValues = .ok φ →
        C.FipList ⟨φ⟩ cli.remote = (.error e, s') →
        (CmdFipLs L C cli args).1 = some e ∧
        (CmdFipLs L C cli args).2.out = cli.out ∧
        (CmdFipLs L C cli args).2.remote = s' ∧
        (CmdFipLs L C cli args).2.calls = cli.calls ++ [⟨.FipList ⟨φ⟩, some e⟩]) := by
  refine ⟨?_, ?_, ?_, ?_⟩
  · intro args p s' hp hc
    simp [CmdFipAllocate, hp, hc, errOf]
  · intro args p s' hp hc
    simp [CmdFipAssociate, hp, hc]
  · intro args p s' hp hc
    simp [CmdFipDeassociate, hp, hc, errOf]
  · intro args p φ s' hp hf hc
    simp [CmdFipLs, hp, hf, hc, errOf]

/-- Witness of C5 on `fip allocate 7`, `fip associate 10.0.0.9 web`,
`fip deassociate db` and `fip ls -f a=1 -f b=2`, each refused by the client. -/
theorem remote_error_surfaced_as_is_witness :
    ((CmdFipAllocate sampleLib sampleClient sampleCli ["7"]).1
        = some (.ext "unsupported count") ∧
      (CmdFipAllocate sampleLib sampleClient sampleCli ["7"]).2.out = "" ∧
      (CmdFipAllocate sampleLib sampleClient sampleCli ["7"]).2.remote
        = ["10.0.0.1", "10.0.0.2"] ∧
      (CmdFipAllocate sampleLib sampleClient sampleCli ["7"]).2.calls
        = [] ++ [⟨.FipAllocate "7", some (.ext "unsupported count")⟩]) ∧
    ((CmdFipAssociate sampleLib sampleClient sampleCli ["10.0.0.9", "web"]).1
        = some (.ext "no such floating IP: 10.0.0.9") ∧
      (CmdFipAssociate sampleLib sampleClient sampleCli ["10.0.0.9", "web"]).2.out = "" ∧
      (CmdFipAssociate sampleLib sampleClient sampleCli ["10.0.0.9", "web"]).2.remote
        = ["10.0.0.1", "10.0.0.2"] ∧
      (CmdFipAssociate sampleLib sampleClient sampleCli ["10.0.0.9", "web"]).2.calls
        = [] ++ [⟨.FipAssociate "10.0.0.9" "web",
            some (.ext "no such floating IP: 10.0.0.9")⟩]) ∧
    ((CmdFipDeassociate sampleLib sampleClient sampleCli ["db"]).1
        = some (.ext "no such container") ∧
      (CmdFipDeassociate sampleLib sampleClient sampleCli ["db"]).2.out = "" ∧
      (CmdFipDeassociate sampleLib sampleClient sampleCli ["db"]).2.remote
        = ["10.0.0.1", "10.0.0.2"] ∧
      (CmdFipDeassociate sampleLib sampleClient sampleCli ["db"]).2.calls
        = [] ++ [⟨.FipDeassociate "db", some (.ext "no such container")⟩]) ∧
    ((CmdFipLs sampleLib sampleClient sampleCli ["-f", "a=1", "-f", "b=2"]).1
        = some (.ext "too many filters") ∧
      (CmdFipLs sampleLib sampleClient sampleCli ["-f", "a=1", "-f", "b=2"]).2.out = "" ∧
      (CmdFipLs sampleLib sampleClient sampleCli ["-f", "a=1", "-f", "b=2"]).2.remote
        = ["10.0.0.1", "10.0.0.2"] ∧
      (CmdFipLs sampleLib sampleClient sampleCli ["-f", "a=1", "-f", "b=2"]).2.calls
        = [] ++ [⟨.FipList ⟨["a=1", "b=2"]⟩, some (.ext "too many filters")⟩]) :=
  ⟨(remote_error_surfaced_as_is sampleLib sampleClient sampleCli (.ext "unsupported count")).1
      ["7"] ⟨["7"], []⟩ ["10.0.0.1", "10.0.0.2"] rfl rfl,
    (remote_error_surfaced_as_is sampleLib sampleClient sampleCli
      (.ext "no such floating IP: 10.0.0.9")).2.1
      ["10.0.0.9", "web"] ⟨["10.0.0.9", "web"], []⟩ ["10.0.0.1", "10.0.0.2"] rfl rfl,
    (remote_error_surfaced_as_is sampleLib sampleClient sampleCli
      (.ext "no such container")).2.2.1
      ["db"] ⟨["db"], []⟩ ["10.0.0.1", "10.0.0.2"] rfl rfl,
    (remote_error_surfaced_as_is sampleLib sampleClient sampleCli
      (.ext "too many filters")).2.2.2
      ["-f", "a=1", "-f", "b=2"] ⟨[], ["a=1", "b=2"]⟩ ["a=1", "b=2"]
      ["10.0.0.1", "10.0.0.2"] rfl rfl rfl⟩

/-- C6: for each of the five subcommands, when `cmd.ParseFlags` returns an error
`e` the subcommand returns exactly `e` and leaves the client, the trace of
calls, `cli.out` and `cli.err` as they were. -/
theorem parse_error_aborts {σ Φ : Type} (L : Lib Φ) (C : APIClient σ Φ)
    (cli : DockerCli σ Φ) (e : GoError) :
    (∀ args, allocateCmd.ParseFlags L args true = .error e →
        CmdFipAllocate L C cli args = (some e, cli)) ∧
    (∀ args, releaseCmd.ParseFlags L args true = .error e →
        CmdFipRelease L C cli args = (some e, cli)) ∧
    (∀ args, associateCmd.ParseFlags L args true = .error e →
        CmdFipAssociate L C cli args = (some e, cli)) ∧
    (∀ args, deassociateCmd.ParseFlags L args true = .error e →
        CmdFipDeassociate L C cli args = (some e, cli)) ∧
    (∀ args, lsCmd.ParseFlags L args true = .error e →
        CmdFipLs L C cli args = (some e, cli)) := by
  refine ⟨?_, ?_, ?_, ?_, ?_⟩
  · intro args h; simp [CmdFipAllocate, h]
  · intro args h; simp [CmdFipRelease, h]
  · intro args h; simp [CmdFipAssociate, h]
  · intro args h; simp [CmdFipDeassociate, h]
  · intro args h; simp [CmdFipLs, h]

/-- Witness of C6 on `fip allocate`, `fip release`, `fip associate 10.0.0.1`,
`fip deassociate` and `fip ls x`, none of which has the declared number of
arguments. -/
theorem parse_error_aborts_witness :
    CmdFipAllocate sampleLib sampleClient sampleCli []
        = (some (.ext "fip allocate: wrong number of arguments"), sampleCli) ∧
      CmdFipRelease sampleLib sampleClient sampleCli []
        = (some (.ext "fip release: wrong number of arguments"), sampleCli) ∧
      CmdFipAssociate sampleLib sampleClient sampleCli ["10.0.0.1"]
        = (some (.ext "fip associate: wrong number of arguments"), sampleCli) ∧
      CmdFipDeassociate sampleLib sampleClient sampleCli []
        = (some (.ext "fip deassociate: wrong number of arguments"), sampleCli) ∧
      CmdFipLs sampleLib sampleClient sampleCli ["x"]
        = (some (.ext "fip ls: wrong number of arguments"), sampleCli) :=
  ⟨(parse_error_aborts sampleLib sampleClient sampleCli
      (.ext "fip allocate: wrong number of arguments")).1 [] rfl,
    (parse_error_aborts sampleLib sampleClient sampleCli
      (.ext "fip release: wrong number of arguments")).2.1 [] rfl,
    (parse_error_aborts sampleLib sampleClient sampleCli
      (.ext "fip associate: wrong number of arguments")).2.2.1 ["10.0.0.1"] rfl,
    (parse_error_aborts sampleLib sampleClient sampleCli
      (.ext "fip deassociate: wrong number of arguments")).2.2.2.1 [] rfl,
    (parse_error_aborts sampleLib sampleClient sampleCli
      (.ext "fip ls: wrong number of arguments")).2.2.2.2 ["x"] rfl⟩

/-! ## `fip ls` and its filters -/

/-- C9: when the argument list of `CmdFipLs` parses with filter values
`f_1..f_k`, the values are folded through `filters.ParseFlag` from left to right
starting from `filters.NewArgs()`. If the fold of `f_1..f_(i-1)` succeeds and
`ParseFlag` refuses `f_i` with error `e`, the subcommand returns `e` whatever
follows `f_i`, with no client call and nothing written. If the whole fold
succeeds, the only client call is `FipList` with the result of the fold as
`Filters` (the remote side is left as that one call has left it, and the error
returned is the error of that call); with no filter value the `Filters` are
`filters.NewArgs()`. -/
theorem CmdFipLs_consolidates_filters {σ Φ : Type} (L : Lib Φ) (C : APIClient σ Φ)
    (cli : DockerCli σ Φ) (args : List String) (p : Parsed)
    (h : lsCmd.ParseFlags L args true = .ok p) :
    (∀ pre f suf acc e, p.listValues = pre ++ f :: suf →
        pre.foldlM (fun acc f => L.ParseFlag f acc) L.NewArgs = .ok acc →
        L.ParseFlag f acc = .error e →
        CmdFipLs L C cli args = (some e, cli)) ∧
    (∀ φ, p.listValues.foldlM (fun acc f => L.ParseFlag f acc) L.NewArgs = .ok φ →
        (CmdFipLs L C cli args).2.calls
          = cli.calls ++ [⟨.FipList ⟨φ⟩, errOf (C.FipList ⟨φ⟩ cli.remote).1⟩] ∧
        (CmdFipLs L C cli args).2.remote = (C.FipList ⟨φ⟩ cli.remote).2 ∧
        (CmdFipLs L C cli args).1 = errOf (C.FipList ⟨φ⟩ cli.remote).1) ∧
    (p.listValues = [] →
        (CmdFipLs L C cli args).2.calls
          = cli.calls ++ [⟨.FipList ⟨L.NewArgs⟩, errOf (C.FipList ⟨L.NewArgs⟩ cli.remote).1⟩] ∧
        (CmdFipLs L C cli args).2.remote = (C.FipList ⟨L.NewArgs⟩ cli.remote).2 ∧
        (CmdFipLs L C cli args).1 = errOf (C.FipList ⟨L.NewArgs⟩ cli.remote).1) := by
  have hcall : ∀ φ, filterLoop L L.NewArgs p.listValues = .ok φ →
      (CmdFipLs L C cli args).2.calls
          = cli.calls ++ [⟨.FipList ⟨φ⟩, errOf (C.FipList ⟨φ⟩ cli.remote).1⟩] ∧
        (CmdFipLs L C cli args).2.remote = (C.FipList ⟨φ⟩ cli.remote).2 ∧
        (CmdFipLs L C cli args).1 = errOf (C.FipList ⟨φ⟩ cli.remote).1 := by
    intro φ hφ
    simp only [CmdFipLs, h, hφ]
    cases (C.FipList ⟨φ⟩ cli.remote).1 <;> simp [printLines_spec, errOf]
  refine ⟨?_, ?_, ?_⟩
  · intro pre f suf acc e hl hpre hf
    rw [← filterLoop_eq_foldlM] at hpre
    have := filterLoop_stops L L.NewArgs acc pre suf f e hpre hf
    rw [← hl] at this
    simp [CmdFipLs, h, this]
  · intro φ hφ
    rw [← filterLoop_eq_foldlM] at hφ
    exact hcall φ hφ
  · intro hnil
    apply hcall
    rw [hnil]
    rfl

/-- Witness of C9 on `fip ls -f a=1 --filter bad -f c=2` (refused at the second
filter), `fip ls -f a=1` and `fip ls`. -/
theorem CmdFipLs_consolidates_filters_witness :
    CmdFipLs sampleLib sampleClient sampleCli ["-f", "a=1", "--filter", "bad", "-f", "c=2"]
        = (some (.ext "bad format of filter (expected name=value)"), sampleCli) ∧
      ((CmdFipLs sampleLib sampleClient sampleCli ["-f", "a=1"]).2.calls
          = [] ++ [⟨.FipList ⟨["a=1"]⟩,
              errOf (sampleClient.FipList ⟨["a=1"]⟩ sampleCli.remote).1⟩] ∧
        (CmdFipLs sampleLib sampleClient sampleCli ["-f", "a=1"]).2.remote
          = (sampleClient.FipList ⟨["a=1"]⟩ ["10.0.0.1", "10.0.0.2"]).2 ∧
        (CmdFipLs sampleLib sampleClient sampleCli ["-f", "a=1"]).1
          = errOf (sampleClient.FipList ⟨["a=1"]⟩ ["10.0.0.1", "10.0.0.2"]).1) ∧
      ((CmdFipLs sampleLib sampleClient sampleCli []).2.calls
          = [] ++ [⟨.FipList ⟨[]⟩, errOf (sampleClient.FipList ⟨[]⟩ sampleCli.remote).1⟩] ∧
        (CmdFipLs sampleLib sampleClient sampleCli []).2.remote
          = (sampleClient.FipList ⟨[]⟩ ["10.0.0.1", "10.0.0.2"]).2 ∧
        (CmdFipLs sampleLib sampleClient sampleCli []).1
          = errOf (sampleClient.FipList ⟨[]⟩ ["10.0.0.1", "10.0.0.2"]).1) :=
  ⟨(CmdFipLs_consolidates_filters sampleLib sampleClient sampleCli
      ["-f", "a=1", "--filter", "bad", "-f", "c=2"] ⟨[], ["a=1", "bad", "c=2"]⟩ rfl).1
      ["a=1"] "bad" ["c=2"] ["a=1"] (.ext "bad format of filter (expected name=value)")
      rfl rfl rfl,
    (CmdFipLs_consolidates_filters sampleLib sampleClient sampleCli
      ["-f", "a=1"] ⟨[], ["a=1"]⟩ rfl).2.1 ["a=1"] rfl,
    (CmdFipLs_consolidates_filters sampleLib sampleClient sampleCli
      [] ⟨[], []⟩ rfl).2.2 rfl⟩

/-! ## Declared arities -/

/-- What a successful parse says about the number of positional arguments of
each subcommand, as the requirements are declared in the code. -/
theorem declared_arities {Φ : Type} (L : Lib Φ) (args : List String) (p : Parsed) :
    (allocateCmd.ParseFlags L args true = .ok p → p.args.length = 1) ∧
      (releaseCmd.ParseFlags L args true = .ok p → 1 ≤ p.args.length) ∧
      (associateCmd.ParseFlags L args true = .ok p → 2 ≤ p.args.length) ∧
      (deassociateCmd.ParseFlags L args true = .ok p → p.args.length = 1) ∧
      (lsCmd.ParseFlags L args true = .ok p → p.args.length = 0) := by
  refine ⟨?_, ?_, ?_, ?_, ?_⟩
  · intro h
    have := (ParseFlags_ok L _ args true p h).2 (.Exact, 1) allocateCmd_req
    simpa [requirementMet] using this
  · intro h
    have := (ParseFlags_ok L _ args true p h).2 (.Min, 1)
      (by simp [releaseCmd, FlagSet.Require, Subcmd])
    simpa [requirementMet] using this
  · intro h
    have := (ParseFlags_ok L _ args true p h).2 (.Min, 2) associateCmd_req
    simpa [requirementMet] using this
  · intro h
    have := (ParseFlags_ok L _ args true p h).2 (.Exact, 1) deassociateCmd_req
    simpa [requirementMet] using this
  · intro h
    have := (ParseFlags_ok L _ args true p h).2 (.Exact, 0)
      (by simp [lsCmd, FlagSet.Require, FlagSet.Var, Subcmd])
    simpa [requirementMet] using this

/-- C7, the code at `fip associate 10.0.0.1 web extra`: the requirement declared by
`CmdFipAssociate` is a minimum of two arguments, so the three positional
arguments parse, and `FipAssociate "10.0.0.1" "web"` is called with the third
argument dropped, whatever the client. -/
theorem CmdFipAssociate_accepts_a_third_argument :
    associateCmd.nArgRequirements = [(.Min, 2)] ∧
      associateCmd.ParseFlags sampleLib ["10.0.0.1", "web", "extra"] true
        = .ok ⟨["10.0.0.1", "web", "extra"], []⟩ ∧
      ∀ (C : APIClient (List String) (List String)) (cli : DockerCli (List String) (List String)),
        (CmdFipAssociate sampleLib C cli ["10.0.0.1", "web", "extra"]).2.calls
          = cli.calls ++ [⟨.FipAssociate "10.0.0.1" "web",
              (C.FipAssociate "10.0.0.1" "web" cli.remote).1⟩] :=
  ⟨rfl, rfl, fun _ _ => rfl⟩

/-! ## The help text -/

theorem join_length (l : List String) :
    (String.join l).length = (l.map String.length).sum := by
  induction l with
  | nil => rfl
  | cons a l ih => simp [join_cons, ih]

/-- The loop of `fipUsage` appends the lines in enumeration order. -/
theorem usage_foldl (init : String) (order : List (String × String)) :
    order.foldl (fun help entry => help ++ usageLine entry) init
      = init ++ String.join (order.map usageLine) := by
  induction order generalizing init with
  | nil => simp [join_nil]
  | cons e order ih => simp [ih, join_cons, String.append_assoc]

theorem fipUsage_eq (order : List (String × String)) :
    fipUsage order
      = "Commands:\n" ++ String.join (order.map usageLine)
          ++ "\nRun 'docker fip COMMAND --help' for more information on a command." := by
  simp [fipUsage, usage_foldl]

/-- Two texts that agree after a separator-free start and a separator agree on
the start and on the rest. -/
theorem separator_cancel {α : Type} (x : α) (b₁ b₂ r₁ r₂ : List α) (h₁ : x ∉ b₁)
    (h₂ : x ∉ b₂) (h : b₁ ++ x :: r₁ = b₂ ++ x :: r₂) : b₁ = b₂ ∧ r₁ = r₂ := by
  induction b₁ generalizing b₂ with
  | nil =>
    cases b₂ with
    | nil => simpa using h
    | cons c b₂ =>
      simp only [List.nil_append, List.cons_append, List.cons.injEq] at h
      exact absurd (by simp [h.1]) h₂
  | cons c b₁ ih =>
    cases b₂ with
    | nil =>
      simp only [List.nil_append, List.cons_append, List.cons.injEq] at h
      exact absurd (by simp [h.1]) h₁
    | cons d b₂ =>
      simp only [List.cons_append, List.cons.injEq] at h
      have := ih b₂ (fun hm => h₁ (List.mem_cons_of_mem _ hm))
        (fun hm => h₂ (List.mem_cons_of_mem _ hm)) h.2
      exact ⟨by rw [h.1, this.1], this.2⟩

/-- Lines that do not contain the separator can be read back from their
concatenation. -/
theorem lines_unique {α : Type} (x : α) (l₁ l₂ : List (List α)) (h₁ : ∀ b ∈ l₁, x ∉ b)
    (h₂ : ∀ b ∈ l₂, x ∉ b)
    (h : (l₁.map (fun b => b ++ [x])).flatten = (l₂.map (fun b => b ++ [x])).flatten) :
    l₁ = l₂ := by
  induction l₁ generalizing l₂ with
  | nil =>
    cases l₂ with
    | nil => rfl
    | cons b l₂ => simp at h
  | cons a l₁ ih =>
    cases l₂ with
    | nil => simp at h
    | cons b l₂ =>
      simp only [List.map_cons, List.flatten_cons, List.append_assoc, List.singleton_append] at h
      have hc := separator_cancel x a b _ _ (h₁ a (List.mem_cons_self _ _))
        (h₂ b (List.mem_cons_self _ _)) h
      rw [hc.1, ih l₂ (fun c hm => h₁ c (List.mem_cons_of_mem _ hm))
        (fun c hm => h₂ c (List.mem_cons_of_mem _ hm)) hc.2]

/-- A map that is injective on `S` is injective on the lists drawn from `S`. -/
theorem map_eq_of_injOn {α β : Type} (f : α → β) (S : List α)
    (hinj : ∀ a ∈ S, ∀ b ∈ S, f a = f b → a = b) (l₁ l₂ : List α) (h₁ : ∀ a ∈ l₁, a ∈ S)
    (h₂ : ∀ b ∈ l₂, b ∈ S) (h : l₁.map f = l₂.map f) : l₁ = l₂ := by
  induction l₁ generalizing l₂ with
  | nil =>
    cases l₂ with
    | nil => rfl
    | cons b l₂ => simp at h
  | cons a l₁ ih =>
    cases l₂ with
    | nil => simp at h
    | cons b l₂ =>
      simp only [List.map_cons, List.cons.injEq] at h
      rw [hinj a (h₁ a (List.mem_cons_self _ _)) b (h₂ b (List.mem_cons_self _ _)) h.1,
        ih l₂ (fun c hm => h₁ c (List.mem_cons_of_mem _ hm))
          (fun c hm => h₂ c (List.mem_cons_of_mem _ hm)) h.2]

/-- The five lines have no newline before their last character. -/
theorem usageLine_body_no_newline :
    ∀ e ∈ fipCommands, '\n' ∉ ("  " ++ fmtLeft25 e.1 ++ e.2).data := by decide

/-- The five lines are pairwise different. -/
theorem usageLine_body_injOn :
    ∀ a ∈ fipCommands, ∀ b ∈ fipCommands,
      ("  " ++ fmtLeft25 a.1 ++ a.2).data = ("  " ++ fmtLeft25 b.1 ++ b.2).data → a = b := by
  decide

/-- The shape of each of the five lines. -/
theorem usageLine_shape :
    ∀ e ∈ fipCommands,
      usageLine e
          = "  " ++ (e.1 ++ String.mk (List.replicate (25 - e.1.length) ' ')) ++ e.2 ++ "\n" ∧
        (e.1 ++ String.mk (List.replicate (25 - e.1.length) ' ')).length = 25 := by
  decide

/-- The text determines the enumeration order. -/
theorem fipUsage_injOn (o₁ o₂ : List (String × String)) (h₁ : ∀ e ∈ o₁, e ∈ fipCommands)
    (h₂ : ∀ e ∈ o₂, e ∈ fipCommands) (h : fipUsage o₁ = fipUsage o₂) : o₁ = o₂ := by
  rw [fipUsage_eq, fipUsage_eq] at h
  have hd := congrArg String.data h
  simp only [String.data_append, List.append_cancel_right_eq, List.append_cancel_left_eq,
    String.join_eq, List.map_map] at hd
  have hb : (o₁.map (fun e => ("  " ++ fmtLeft25 e.1 ++ e.2).data)).map (fun b => b ++ ['\n'])
      = o₁.map (String.data ∘ usageLine) := by
    simp [usageLine, Function.comp_def]
  have hb' : (o₂.map (fun e => ("  " ++ fmtLeft25 e.1 ++ e.2).data)).map (fun b => b ++ ['\n'])
      = o₂.map (String.data ∘ usageLine) := by
    simp [usageLine, Function.comp_def]
  rw [← hb, ← hb'] at hd
  have hl := lines_unique '\n' _ _
    (by
      intro b hm
      obtain ⟨e, he, rfl⟩ := List.mem_map.mp hm
      exact usageLine_body_no_newline e (h₁ e he))
    (by
      intro b hm
      obtain ⟨e, he, rfl⟩ := List.mem_map.mp hm
      exact usageLine_body_no_newline e (h₂ e he))
    hd
  exact map_eq_of_injOn _ fipCommands usageLine_body_injOn o₁ o₂ h₁ h₂ hl

/-- C10: for every enumeration order of the five-entry map, `fipUsage` is
`"Commands:\n"`, then one line per command in that order (each command once;
each line two spaces, the name padded with spaces to 25 characters, the
description and a newline), then the closing sentence without a newline after
it. So for two enumeration orders the texts have the same length (352) and
the same lines up to order, and they differ when the orders differ. -/
theorem fipUsage_shape_for_every_order (o₁ o₂ : List (String × String))
    (h₁ : o₁.Perm fipCommands) (h₂ : o₂.Perm fipCommands) :
    fipUsage o₁
        = "Commands:\n" ++ String.join (o₁.map usageLine)
            ++ "\nRun 'docker fip COMMAND --help' for more information on a command." ∧
      o₁.length = 5 ∧
      (o₁.map Prod.fst).Perm ["allocate", "associate", "deassociate", "ls", "release"] ∧
      (∀ e ∈ o₁,
        usageLine e
            = "  " ++ (e.1 ++ String.mk (List.replicate (25 - e.1.length) ' ')) ++ e.2 ++ "\n" ∧
          (e.1 ++ String.mk (List.replicate (25 - e.1.length) ' ')).length = 25) ∧
      (fipUsage o₁).length = 352 ∧
      (fipUsage o₁).length = (fipUsage o₂).length ∧
      (o₁.map usageLine).Perm (o₂.map usageLine) ∧
      (o₁ ≠ o₂ → fipUsage o₁ ≠ fipUsage o₂) := by
  have hlen : ∀ o : List (String × String), o.Perm fipCommands → (fipUsage o).length = 352 := by
    intro o ho
    rw [fipUsage_eq]
    simp only [String.length_append, join_length, List.map_map]
    rw [(ho.map (String.length ∘ usageLine)).sum_eq]
    decide
  refine ⟨fipUsage_eq o₁, ?_, ?_, ?_, hlen o₁ h₁, ?_, ?_, ?_⟩
  · simpa [fipCommands] using h₁.length_eq
  · simpa [fipCommands] using h₁.map Prod.fst
  · intro e he
    exact usageLine_shape e (h₁.mem_iff.mp he)
  · rw [hlen o₁ h₁, hlen o₂ h₂]
  · exact (h₁.trans h₂.symm).map usageLine
  · intro hne heq
    exact hne (fipUsage_injOn o₁ o₂ (fun e he => h₁.mem_iff.mp he)
      (fun e he => h₂.mem_iff.mp he) heq)

/-- Witness of C10 on the order in which the map is written and on its reverse. -/
theorem fipUsage_shape_for_every_order_witness :
    fipCommands.reverse.Perm fipCommands ∧
      (fipUsage fipCommands.reverse).length = (fipUsage fipCommands).length ∧
      ((fipCommands.reverse).map usageLine).Perm (fipCommands.map usageLine) ∧
      (fipCommands.reverse ≠ fipCommands → fipUsage fipCommands.reverse ≠ fipUsage fipCommands) :=
  ⟨List.reverse_perm _,
    (fipUsage_shape_for_every_order fipCommands.reverse fipCommands (List.reverse_perm _)
      (List.Perm.refl _)).2.2.2.2.2.1,
    (fipUsage_shape_for_every_order fipCommands.reverse fipCommands (List.reverse_perm _)
      (List.Perm.refl _)).2.2.2.2.2.2.1,
    (fipUsage_shape_for_every_order fipCommands.reverse fipCommands (List.reverse_perm _)
      (List.Perm.refl _)).2.2.2.2.2.2.2⟩

end Fip
